import Mathlib

/-!
Shallow embedding of the filter-and-aggregate logic of the
`app_india` dashboard script (the single source file of the
Data_Science_Jobs_in_India repository), together with proofs of the
behavioural properties of its filtering and aggregation code.

Modelling conventions:
* a dataframe is a `List Row`; the boolean skill-indicator columns of a row
  are carried positionally in `Row.skills`, with the column names kept at
  table level (`Table.colNames`);
* machine floats of the source hold exact numeric data here (`ℚ` for
  salaries), and pandas `NaN` results of empty aggregations are `Option`
  `none`;
* `pandas.Series.median` sorts and takes the middle element (mean of the two
  middle elements for even length); `value_counts` sorts by count descending;
  `sort_values` / Python `sorted` are stable, modelled by insertion sort;
  `groupby` sorts its keys, an order irrelevant to the stated properties and
  modelled as first-appearance order for string keys;
* Python `round` / numpy `.round(1)` round half to even.
-/

/-- One row of the loaded jobs table `india_jobs_cleaned.csv`: the columns the
script reads, with the boolean indicator columns carried positionally in
`skills` (aligned with `Table.colNames`). -/
structure Row where
  job_title : String
  company : String
  job_category : String
  seniority : String
  avg_salary_lpa : ℚ
  min_experience_clean : ℕ
  skills : List Bool
deriving DecidableEq

/-- The sidebar state of the dashboard: selected category list, seniority
selector (the sentinel "All" or one exact value), and the two inclusive range
sliders. -/
structure FilterCriteria where
  categories : List String
  seniority : String
  salaryLo : ℚ
  salaryHi : ℚ
  expLo : ℕ
  expHi : ℕ
deriving DecidableEq

/-- Comparison of list elements by an ordered key, ascending. -/
def keyLe {A B : Type} (f : A → B) [LinearOrder B] (a b : A) : Prop := f a ≤ f b

/-- Comparison of list elements by an ordered key, descending. -/
def keyGe {A B : Type} (f : A → B) [LinearOrder B] (a b : A) : Prop := f b ≤ f a

instance {A B : Type} (f : A → B) [LinearOrder B] : IsTotal A (keyLe f) :=
  ⟨fun a b => le_total (f a) (f b)⟩

instance {A B : Type} (f : A → B) [LinearOrder B] : IsTrans A (keyLe f) :=
  ⟨fun _ _ _ h h2 => le_trans h h2⟩

instance {A B : Type} (f : A → B) [LinearOrder B] : DecidableRel (keyLe f) :=
  fun a b => inferInstanceAs (Decidable (f a ≤ f b))

instance {A B : Type} (f : A → B) [LinearOrder B] : IsTotal A (keyGe f) :=
  ⟨fun a b => le_total (f b) (f a)⟩

instance {A B : Type} (f : A → B) [LinearOrder B] : IsTrans A (keyGe f) :=
  ⟨fun _ _ _ h h2 => le_trans h2 h⟩

instance {A B : Type} (f : A → B) [LinearOrder B] : DecidableRel (keyGe f) :=
  fun a b => inferInstanceAs (Decidable (f b ≤ f a))

/-- The series sorted ascending, the first step of `pandas.Series.median`. -/
def sortedOf (xs : List ℚ) : List ℚ := xs.insertionSort (· ≤ ·)

/-- `pandas.Series.median`: sort, take the middle element (odd length) or the
mean of the two middle elements (even length); `none` models the `NaN`
returned on an empty series. -/
def median (xs : List ℚ) : Option ℚ :=
  if xs.length = 0 then none
  else if xs.length % 2 = 1 then some ((sortedOf xs).getD (xs.length / 2) 0)
  else some
    (((sortedOf xs).getD (xs.length / 2 - 1) 0 + (sortedOf xs).getD (xs.length / 2) 0) / 2)

/-- `pandas.Series.mean`; `none` models the `NaN` returned on an empty
series. -/
def mean (xs : List ℚ) : Option ℚ :=
  if xs.length = 0 then none else some (xs.sum / (xs.length : ℚ))

/-- Round to the nearest integer, ties to even (the rounding of Python
`round`, numpy and `str.format`). -/
def roundHalfEven (q : ℚ) : ℤ :=
  if q - ⌊q⌋ < 1 / 2 then ⌊q⌋
  else if q - ⌊q⌋ > 1 / 2 then ⌊q⌋ + 1
  else if ⌊q⌋ % 2 = 0 then ⌊q⌋ else ⌊q⌋ + 1

/-- `.round(1)` of pandas: round to one decimal place. -/
def round1 (q : ℚ) : ℚ := (roundHalfEven (q * 10) : ℚ) / 10

/-- Python `format(q, ".1f")` on a finite value: one decimal digit, rounding
half to even. -/
def fmt1 (q : ℚ) : String :=
  let n := roundHalfEven (q * 10)
  if n < 0 then "-" ++ toString ((-n) / 10) ++ "." ++ toString ((-n) % 10)
  else toString (n / 10) ++ "." ++ toString (n % 10)

/-- The boolean mask of lines 64-68 of the script: category membership
(`isin`), and the two inclusive `between` range tests. -/
def rowMask (c : FilterCriteria) (r : Row) : Bool :=
  c.categories.contains r.job_category
    && decide (c.salaryLo ≤ r.avg_salary_lpa) && decide (r.avg_salary_lpa ≤ c.salaryHi)
    && decide (c.expLo ≤ r.min_experience_clean) && decide (r.min_experience_clean ≤ c.expHi)

/-- Lines 64-71: `filtered_df` is the mask filter, then, when the seniority
selector is not the sentinel "All", a second filter on exact seniority
equality. -/
def filtered_df (df : List Row) (c : FilterCriteria) : List Row :=
  if c.seniority = "All" then df.filter (rowMask c)
  else (df.filter (rowMask c)).filter (fun r => r.seniority == c.seniority)

/-- Line 82: `median_salary = filtered_df['avg_salary_lpa'].median()`. -/
def median_salary (view : List Row) : Option ℚ :=
  median (view.map fun r => r.avg_salary_lpa)

/-- Line 83: the string `st.metric` receives for the median-salary metric.
Python formats the `NaN` of an empty view as "nan", so the metric text is
"₹nan LPA" in that case. -/
def medianSalaryDisplay (view : List Row) : String :=
  match median_salary view with
  | none => "₹nan LPA"
  | some v => "₹" ++ fmt1 v ++ " LPA"

/-- Line 90: `avg_exp = filtered_df['min_experience_clean'].mean()`. -/
def avg_exp (view : List Row) : Option ℚ :=
  mean (view.map fun r => (r.min_experience_clean : ℚ))

/-- Line 91: the string of the average-experience metric; `NaN` of an empty
view is formatted as "nan". -/
def avgExpDisplay (view : List Row) : String :=
  match avg_exp view with
  | none => "nan yrs"
  | some v => fmt1 v ++ " yrs"

/-- Lines 121-122 group keys: the distinct seniority values of the view
(pandas `groupby` sorts them; the key order is irrelevant here because the
aggregate is re-sorted by median salary afterwards, so the distinct values
are kept in list order). -/
def seniorityKeys (view : List Row) : List String :=
  (view.map fun r => r.seniority).dedup

/-- Lines 121-122: `groupby('seniority')['avg_salary_lpa'].median()`, then
`sort_values('avg_salary_lpa')` ascending. Every group is non-empty, so its
median is defined; `getD 0` extracts it. -/
def salary_by_seniority (view : List Row) : List (String × ℚ) :=
  ((seniorityKeys view).map (fun s =>
    (s, (median ((view.filter fun r => r.seniority == s).map
      fun r => r.avg_salary_lpa)).getD 0))).insertionSort (keyLe Prod.snd)

/-- One row of the `cat_salary` aggregation of lines 140-144: a category, the
median salary of its group, and the group's row count (the `count` of the
`job_title` column). -/
structure CatEntry where
  job_category : String
  avg_salary_lpa : ℚ
  count : ℕ
deriving DecidableEq

/-- Lines 140-143 group keys: the distinct categories of the view (pandas
`groupby` sorts them; the key order is irrelevant here because the aggregate
is re-sorted by median salary afterwards, so the distinct values are kept in
list order). -/
def catKeys (view : List Row) : List String :=
  (view.map fun r => r.job_category).dedup

/-- Lines 140-143: the per-category aggregation, median of `avg_salary_lpa`
and count of `job_title` per group. -/
def catAgg (view : List Row) : List CatEntry :=
  (catKeys view).map (fun cat =>
    let rows := view.filter (fun r => r.job_category == cat)
    ⟨cat, (median (rows.map fun r => r.avg_salary_lpa)).getD 0, rows.length⟩)

/-- Line 144: keep groups with `count >= 5`, sort by median salary descending,
`head(10)`. -/
def cat_salary (view : List Row) : List CatEntry :=
  (((catAgg view).filter (fun e => 5 ≤ e.count)).insertionSort
    (keyGe CatEntry.avg_salary_lpa)).take 10

/-- A dataframe together with the names of its boolean indicator columns, in
column order; each row's `skills` list is positionally aligned with
`colNames`. `rows` is the current `filtered_df`. -/
structure Table where
  colNames : List String
  rows : List Row

/-- Line 166: the columns whose name starts with "skill_" (the
`String.startsWith` test of the source, carried out on the underlying
character lists), kept with their column position. -/
def skill_cols (t : Table) : List (ℕ × String) :=
  t.colNames.enum.filter (fun p => List.isPrefixOf "skill_".data p.2.data)

/-- `filtered_df[col].sum()` for the boolean indicator column at position `i`:
the number of rows whose flag is set. -/
def colSum (rows : List Row) (i : ℕ) : ℕ :=
  rows.countP (fun r => r.skills.getD i false)

/-- Lines 167-172: the per-skill indicator sums, keeping only strictly
positive counts, in column order (the Python dict is insertion-ordered). The
cosmetic renaming of the column name for display (`replace` and `title`,
line 169) is not modelled: the column name itself is the key. -/
def skill_counts (t : Table) : List (String × ℕ) :=
  ((skill_cols t).map (fun p => (p.2, colSum t.rows p.1))).filter (fun q => 0 < q.2)

/-- Line 174: sort the skill counts by count descending (Python `sorted` is
stable) and keep the first 12. -/
def top_skills (t : Table) : List (String × ℕ) :=
  ((skill_counts t).insertionSort (keyGe Prod.snd)).take 12

/-- Lines 177-181: the skills table, each top skill with its count and
`Percentage = (Count / len(filtered_df) * 100).round(1)`. -/
def skills_df (t : Table) : List (String × ℕ × ℚ) :=
  (top_skills t).map (fun p =>
    (p.1, p.2, round1 ((p.2 : ℚ) / (t.rows.length : ℚ) * 100)))

/-- `pandas.Series.value_counts()`: the distinct values with their
multiplicities, sorted by count descending. -/
def value_counts {A : Type} [DecidableEq A] (xs : List A) : List (A × ℕ) :=
  ((xs.dedup).map (fun v => (v, xs.count v))).insertionSort (keyGe Prod.snd)

/-- Lines 258-259: `filtered_df['company'].value_counts().head(15)`. -/
def top_companies (view : List Row) : List (String × ℕ) :=
  (value_counts (view.map fun r => r.company)).take 15

/-- Lines 220-221: `filtered_df['job_category'].value_counts().head(8)`. -/
def job_cats (view : List Row) : List (String × ℕ) :=
  (value_counts (view.map fun r => r.job_category)).take 8

/-- Lines 236-237: `filtered_df['seniority'].value_counts()`, untruncated. -/
def seniority_dist (view : List Row) : List (String × ℕ) :=
  value_counts (view.map fun r => r.seniority)

/-- Lines 284-285:
`filtered_df['min_experience_clean'].value_counts().sort_index().head(15)`:
re-sorted ascending by the experience value itself, then the first 15. -/
def exp_dist (view : List Row) : List (ℕ × ℕ) :=
  ((value_counts (view.map fun r => r.min_experience_clean)).insertionSort
    (keyLe Prod.fst)).take 15

/-- Line 355: median salary of the rows whose seniority is "Junior"; `none`
models the `NaN` of an empty group. -/
def junior_sal (view : List Row) : Option ℚ :=
  median ((view.filter fun r => r.seniority == "Junior").map fun r => r.avg_salary_lpa)

/-- Line 356: median salary of the rows whose seniority is "Senior". -/
def senior_sal (view : List Row) : Option ℚ :=
  median ((view.filter fun r => r.seniority == "Senior").map fun r => r.avg_salary_lpa)

/-- Lines 358-359: the growth metric
`((senior_sal - junior_sal) / junior_sal) * 100`, computed only under the
guard `pd.notna(junior_sal) and pd.notna(senior_sal) and junior_sal > 0`;
`none` means the guard failed and the metric was skipped. -/
def growth_pct (view : List Row) : Option ℚ :=
  match junior_sal view, senior_sal view with
  | some j, some s => if 0 < j then some ((s - j) / j * 100) else none
  | _, _ => none

/-- Lines 300-301 group keys: `groupby('min_experience_clean')` sorts the
distinct experience values. -/
def expKeys (view : List Row) : List ℕ :=
  ((view.map fun r => r.min_experience_clean).dedup).insertionSort (keyLe id)

/-- Lines 300-301: `groupby('min_experience_clean')['avg_salary_lpa'].median()`
followed by the restriction to groups with `min_experience_clean <= 15`. -/
def exp_salary (view : List Row) : List (ℕ × ℚ) :=
  (((expKeys view).map (fun e =>
    (e, (median ((view.filter fun r => r.min_experience_clean == e).map
      fun r => r.avg_salary_lpa)).getD 0))).filter (fun p => p.1 ≤ 15))

/-- Row 1 of the worked example: (Data Analyst, Junior, 6 LPA, 1 yr). -/
def sampleRow1 : Row := ⟨"Data Analyst", "Acme", "Data Analyst", "Junior", 6, 1, [true, false]⟩

/-- Row 2 of the worked example: (Data Scientist, Senior, 25 LPA, 8 yr). -/
def sampleRow2 : Row := ⟨"Data Scientist", "Beta", "Data Scientist", "Senior", 25, 8, [true, true]⟩

/-- Row 3 of the worked example: (Data Analyst, Mid-Level, 10 LPA, 3 yr). -/
def sampleRow3 : Row := ⟨"Data Analyst II", "Gamma", "Data Analyst", "Mid-Level", 10, 3, [false, true]⟩

/-- The three-row dataset of the worked example. -/
def sampleDf : List Row := [sampleRow1, sampleRow2, sampleRow3]

/-- The criteria of the worked example: both categories, seniority "All",
salary interval [5, 20], experience interval [0, 10]. -/
def exCriteria : FilterCriteria := ⟨["Data Analyst", "Data Scientist"], "All", 5, 20, 0, 10⟩

/-- Criteria with an empty category selection (and otherwise permissive
bounds): its view is always empty. -/
def emptyCatCriteria : FilterCriteria := ⟨[], "All", 0, 100, 0, 10⟩

/-- A six-row dataset used to instantiate the general theorems: five
"Data Analyst" rows (so the count-at-least-5 threshold is met), three Junior
and three Senior rows, all distinct experience values. -/
def wDf : List Row :=
  [⟨"A1", "c1", "Data Analyst", "Junior", 4, 1, [true, false]⟩,
   ⟨"A2", "c1", "Data Analyst", "Junior", 5, 2, [true, false]⟩,
   ⟨"A3", "c2", "Data Analyst", "Junior", 6, 3, [false, true]⟩,
   ⟨"A4", "c2", "Data Analyst", "Senior", 10, 6, [true, true]⟩,
   ⟨"A5", "c3", "Data Analyst", "Senior", 12, 20, [true, false]⟩,
   ⟨"S1", "c3", "Data Scientist", "Senior", 18, 4, [false, false]⟩]

/-- The six-row dataset as a table with two skill-indicator columns and one
other boolean column. -/
def wTable : Table := ⟨["skill_python", "skill_sql", "remote_flag"], wDf⟩

/-- The single qualifying entry of the category aggregate of the six-row
dataset: five Data Analyst rows of median salary 6. -/
def catW : CatEntry := ⟨"Data Analyst", 6, 5⟩

/-- The python-skill entry of the skills table of the six-row table: four
flagged rows out of six. -/
def skillW : String × ℕ × ℚ :=
  ("skill_python", 4, round1 (((4 : ℕ) : ℚ) / ((wTable.rows.length : ℕ) : ℚ) * 100))

/-- A defaulted index inside the bounds of a list picks an element of it. -/
theorem getD_mem_of_lt {A : Type} (l : List A) (d : A) (i : ℕ) (h : i < l.length) :
    l.getD i d ∈ l := by
  rw [List.getD_eq_getElem l d h]
  exact List.getElem_mem h

/-- The median is `NaN` exactly on the empty series. -/
theorem median_eq_none_iff (xs : List ℚ) : median xs = none ↔ xs = [] := by
  unfold median
  constructor
  · intro h
    split_ifs at h with h0
    exact List.length_eq_zero.mp h0
  · intro h
    subst h
    simp

/-- Elements of the sorted copy of a series are elements of the series. -/
theorem mem_sortedOf {xs : List ℚ} {x : ℚ} (h : x ∈ sortedOf xs) : x ∈ xs :=
  (List.mem_insertionSort _).mp h

/-- The median of a series of non-negative values is non-negative. -/
theorem median_nonneg {xs : List ℚ} (h : ∀ x ∈ xs, 0 ≤ x) {m : ℚ}
    (hm : median xs = some m) : 0 ≤ m := by
  have hsl : (sortedOf xs).length = xs.length := List.length_insertionSort _ xs
  unfold median at hm
  split_ifs at hm with h0 h1
  · obtain rfl := Option.some.inj hm
    have hlt : xs.length / 2 < (sortedOf xs).length := by
      rw [hsl]
      exact Nat.div_lt_self (Nat.pos_of_ne_zero h0) one_lt_two
    exact h _ (mem_sortedOf (getD_mem_of_lt _ 0 _ hlt))
  · obtain rfl := Option.some.inj hm
    have hlt2 : xs.length / 2 < (sortedOf xs).length := by
      rw [hsl]
      exact Nat.div_lt_self (Nat.pos_of_ne_zero h0) one_lt_two
    have hlt1 : xs.length / 2 - 1 < (sortedOf xs).length :=
      Nat.lt_of_le_of_lt (Nat.sub_le _ _) hlt2
    have ha := h _ (mem_sortedOf (getD_mem_of_lt _ 0 _ hlt1))
    have hb := h _ (mem_sortedOf (getD_mem_of_lt _ 0 _ hlt2))
    linarith

/-- Extracting a present optional value with a default loses nothing. -/
theorem some_getD_of_isSome {A : Type} (o : Option A) (d : A) (h : o.isSome) :
    some (o.getD d) = o := by
  cases o
  · simp at h
  · rfl

/-- The median of the image of a non-empty view is defined. -/
theorem median_map_isSome {view : List Row} (g : Row → ℚ) (hne : view ≠ []) :
    (median (view.map g)).isSome := by
  rw [Option.isSome_iff_ne_none]
  intro hnone
  exact hne (List.map_eq_nil_iff.mp ((median_eq_none_iff _).mp hnone))

/-- A group of rows sharing an observed key value is non-empty. -/
theorem filter_key_ne_nil {K : Type} [DecidableEq K] (view : List Row) (k : Row → K)
    (v : K) (hv : v ∈ view.map k) : view.filter (fun r => k r == v) ≠ [] := by
  rcases List.mem_map.mp hv with ⟨r, hr, rfl⟩
  intro hnil
  have hmem : r ∈ view.filter (fun r2 => k r2 == k r) := List.mem_filter.mpr ⟨hr, by simp⟩
  rw [hnil] at hmem
  exact (List.not_mem_nil r) hmem

/-- A seniority value observed in the view has a non-empty group. -/
theorem seniority_group_ne_nil (view : List Row) (s : String)
    (hv : s ∈ view.map fun r => r.seniority) :
    view.filter (fun r => r.seniority == s) ≠ [] :=
  filter_key_ne_nil view (fun r => r.seniority) s hv

/-- A category value observed in the view has a non-empty group. -/
theorem category_group_ne_nil (view : List Row) (cat : String)
    (hv : cat ∈ view.map fun r => r.job_category) :
    view.filter (fun r => r.job_category == cat) ≠ [] :=
  filter_key_ne_nil view (fun r => r.job_category) cat hv

/-- An experience value observed in the view has a non-empty group. -/
theorem exp_group_ne_nil (view : List Row) (e : ℕ)
    (hv : e ∈ view.map fun r => r.min_experience_clean) :
    view.filter (fun r => r.min_experience_clean == e) ≠ [] :=
  filter_key_ne_nil view (fun r => r.min_experience_clean) e hv

/-- Rounding half to even never goes below zero on a non-negative input. -/
theorem roundHalfEven_nonneg (q : ℚ) (h : 0 ≤ q) : 0 ≤ roundHalfEven q := by
  have hf : (0 : ℤ) ≤ ⌊q⌋ := Int.floor_nonneg.mpr h
  unfold roundHalfEven
  split_ifs <;> omega

/-- Rounding half to even never exceeds an integer bound of the input. -/
theorem roundHalfEven_le (q : ℚ) (B : ℤ) (h : q ≤ (B : ℚ)) : roundHalfEven q ≤ B := by
  have hfB : ⌊q⌋ ≤ B := by
    have h2 := Int.floor_mono h
    simpa using h2
  have hfl : (⌊q⌋ : ℚ) ≤ q := Int.floor_le q
  unfold roundHalfEven
  split_ifs with h1 h2 h3
  · exact hfB
  · have hflt : ⌊q⌋ < B := by
      have : ((⌊q⌋ : ℚ)) < (B : ℚ) := by linarith
      exact_mod_cast this
    omega
  · exact hfB
  · have hge : 1 / 2 ≤ q - (⌊q⌋ : ℚ) := not_lt.mp h1
    have hflt : ⌊q⌋ < B := by
      have : ((⌊q⌋ : ℚ)) < (B : ℚ) := by linarith
      exact_mod_cast this
    omega

/-- One-decimal rounding keeps non-negative values non-negative. -/
theorem round1_nonneg (q : ℚ) (h : 0 ≤ q) : 0 ≤ round1 q := by
  unfold round1
  have h10 := roundHalfEven_nonneg (q * 10) (by linarith)
  have : (0 : ℚ) ≤ (roundHalfEven (q * 10) : ℚ) := by exact_mod_cast h10
  linarith

/-- One-decimal rounding keeps values at most 100 at most 100. -/
theorem round1_le_hundred (q : ℚ) (h : q ≤ 100) : round1 q ≤ 100 := by
  unfold round1
  have h10 : roundHalfEven (q * 10) ≤ (1000 : ℤ) := by
    apply roundHalfEven_le
    push_cast
    linarith
  have : ((roundHalfEven (q * 10) : ℚ)) ≤ 1000 := by exact_mod_cast h10
  linarith

/-- Filtering with the same predicate twice is filtering once. -/
theorem filter_self_idem {A : Type} (p : A → Bool) (l : List A) :
    (l.filter p).filter p = l.filter p := by
  induction l with
  | nil => rfl
  | cons a l ih =>
    by_cases hp : p a <;> simp [List.filter_cons, hp, ih]

/-- Re-applying a pair of filters to their own output changes nothing. -/
theorem filter_pair_idem {A : Type} (p q : A → Bool) (l : List A) :
    (((l.filter p).filter q).filter p).filter q = (l.filter p).filter q := by
  simp only [List.filter_filter]
  apply List.filter_congr
  intro a _
  cases p a <;> cases q a <;> rfl

/-- C1: a row is in the FilteredView exactly when it is a row of the dataset
whose category is in the selected set, whose salary and experience lie within
the two inclusive intervals, and whose seniority equals the selector unless
the selector is "All"; and an empty category selection yields an empty
view. -/
theorem filtered_df_membership_spec (df : List Row) (c : FilterCriteria) :
    (∀ r, r ∈ filtered_df df c ↔
      (r ∈ df ∧ r.job_category ∈ c.categories ∧
       c.salaryLo ≤ r.avg_salary_lpa ∧ r.avg_salary_lpa ≤ c.salaryHi ∧
       c.expLo ≤ r.min_experience_clean ∧ r.min_experience_clean ≤ c.expHi ∧
       (c.seniority = "All" ∨ r.seniority = c.seniority))) ∧
    (c.categories = [] → filtered_df df c = []) := by
  constructor
  · intro r
    unfold filtered_df
    by_cases hAll : c.seniority = "All"
    · rw [if_pos hAll]
      simp [rowMask, List.mem_filter, List.elem_iff, hAll, and_assoc]
    · rw [if_neg hAll]
      simp only [List.mem_filter, Bool.and_eq_true, decide_eq_true_eq, beq_iff_eq, rowMask,
        List.elem_iff, hAll, false_or]
      tauto
  · intro hcat
    have hbase : df.filter (rowMask c) = [] := by
      apply List.filter_eq_nil_iff.mpr
      intro a _
      simp [rowMask, hcat]
    unfold filtered_df
    rw [hbase]
    split <;> simp

/-- C1 witness: the membership characterisation instantiated at the worked
example's dataset, criteria and third row. -/
theorem filtered_df_membership_spec_witness :
    sampleRow3 ∈ filtered_df sampleDf exCriteria ↔
      (sampleRow3 ∈ sampleDf ∧ sampleRow3.job_category ∈ exCriteria.categories ∧
       exCriteria.salaryLo ≤ sampleRow3.avg_salary_lpa ∧
       sampleRow3.avg_salary_lpa ≤ exCriteria.salaryHi ∧
       exCriteria.expLo ≤ sampleRow3.min_experience_clean ∧
       sampleRow3.min_experience_clean ≤ exCriteria.expHi ∧
       (exCriteria.seniority = "All" ∨ sampleRow3.seniority = exCriteria.seniority)) :=
  (filtered_df_membership_spec sampleDf exCriteria).1 sampleRow3

/-- C2 (code bug): on the empty view produced by an empty category selection
every aggregate evaluates without error, but the median-salary and
average-experience metrics format the `NaN` into the rendered text
("₹nan LPA", "nan yrs") instead of the neutral placeholder "N/A" the spec
prescribes. -/
theorem empty_view_metrics_format_nan :
    filtered_df sampleDf emptyCatCriteria = [] ∧
    median_salary (filtered_df sampleDf emptyCatCriteria) = none ∧
    medianSalaryDisplay (filtered_df sampleDf emptyCatCriteria) = "₹nan LPA" ∧
    medianSalaryDisplay (filtered_df sampleDf emptyCatCriteria) ≠ "N/A" ∧
    avgExpDisplay (filtered_df sampleDf emptyCatCriteria) = "nan yrs" ∧
    avgExpDisplay (filtered_df sampleDf emptyCatCriteria) ≠ "N/A" := by
  refine ⟨?_, ?_, ?_, ?_, ?_, ?_⟩ <;> decide

/-- C7: filtering is idempotent — applying the same criteria to its own
FilteredView returns that view unchanged. -/
theorem filtered_df_idempotent (df : List Row) (c : FilterCriteria) :
    filtered_df (filtered_df df c) c = filtered_df df c := by
  unfold filtered_df
  by_cases hAll : c.seniority = "All"
  · simp only [if_pos hAll]
    exact filter_self_idem _ _
  · simp only [if_neg hAll]
    exact filter_pair_idem _ _ _

/-- C7 witness: idempotence at the worked example's dataset and criteria. -/
theorem filtered_df_idempotent_witness :
    filtered_df (filtered_df sampleDf exCriteria) exCriteria =
      filtered_df sampleDf exCriteria :=
  filtered_df_idempotent sampleDf exCriteria

/-- C9: the worked example — both categories selected, seniority "All",
salary interval [5, 20], experience interval [0, 10], on the three-row
dataset — retains exactly the first and third rows, has count 2 and median
salary 8. -/
theorem worked_example_eval :
    filtered_df sampleDf exCriteria = [sampleRow1, sampleRow3] ∧
    (filtered_df sampleDf exCriteria).length = 2 ∧
    median_salary (filtered_df sampleDf exCriteria) = some 8 := by
  have h1 : filtered_df sampleDf exCriteria = [sampleRow1, sampleRow3] := by decide
  refine ⟨h1, by rw [h1]; rfl, ?_⟩
  rw [h1]
  norm_num [median_salary, median, sortedOf, List.insertionSort, List.orderedInsert,
    sampleRow1, sampleRow3]

/-- The junior median is `NaN` exactly when the Junior group is empty. -/
theorem junior_sal_eq_none_iff (view : List Row) :
    junior_sal view = none ↔ view.filter (fun r => r.seniority == "Junior") = [] := by
  unfold junior_sal
  rw [median_eq_none_iff, List.map_eq_nil_iff]

/-- The senior median is `NaN` exactly when the Senior group is empty. -/
theorem senior_sal_eq_none_iff (view : List Row) :
    senior_sal view = none ↔ view.filter (fun r => r.seniority == "Senior") = [] := by
  unfold senior_sal
  rw [median_eq_none_iff, List.map_eq_nil_iff]

/-- C6: on a view with non-negative salaries, the growth metric is skipped
exactly when the Junior group is empty, the Senior group is empty, or the
Junior median is zero, and otherwise equals
(senior median − junior median) / junior median × 100. -/
theorem growth_pct_spec (view : List Row) (h : ∀ r ∈ view, 0 ≤ r.avg_salary_lpa) :
    (growth_pct view = none ↔
      (view.filter (fun r => r.seniority == "Junior") = [] ∨
       view.filter (fun r => r.seniority == "Senior") = [] ∨
       junior_sal view = some 0)) ∧
    (∀ j s, junior_sal view = some j → senior_sal view = some s → j ≠ 0 →
      growth_pct view = some ((s - j) / j * 100)) := by
  have hj0 : ∀ j, junior_sal view = some j → 0 ≤ j := by
    intro j hj
    apply median_nonneg _ hj
    intro x hx
    rcases List.mem_map.mp hx with ⟨r, hr, rfl⟩
    exact h r (List.mem_filter.mp hr).1
  constructor
  · constructor
    · intro hnone
      unfold growth_pct at hnone
      cases hj : junior_sal view with
      | none => exact Or.inl ((junior_sal_eq_none_iff view).mp hj)
      | some j =>
        cases hs : senior_sal view with
        | none => exact Or.inr (Or.inl ((senior_sal_eq_none_iff view).mp hs))
        | some s =>
          rw [hj, hs] at hnone
          have hnone2 : (if 0 < j then some ((s - j) / j * 100) else none) = none := hnone
          by_cases hjpos : 0 < j
          · rw [if_pos hjpos] at hnone2
            exact absurd hnone2 (by simp)
          · have hjz : j = 0 := le_antisymm (not_lt.mp hjpos) (hj0 j hj)
            exact Or.inr (Or.inr (by rw [hjz]))
    · intro hcases
      unfold growth_pct
      rcases hcases with hJ | hS | hjz
      · rw [(junior_sal_eq_none_iff view).mpr hJ]
      · rw [(senior_sal_eq_none_iff view).mpr hS]
        cases junior_sal view <;> rfl
      · rw [hjz]
        cases senior_sal view with
        | none => rfl
        | some s => simp
  · intro j s hj hs hjne
    unfold growth_pct
    rw [hj, hs]
    show (if 0 < j then some ((s - j) / j * 100) else none) = some ((s - j) / j * 100)
    rw [if_pos (lt_of_le_of_ne (hj0 j hj) (Ne.symm hjne))]

/-- C6 witness: the growth characterisation instantiated at the six-row
dataset, whose salaries are all non-negative. -/
theorem growth_pct_spec_witness :
    (growth_pct wDf = none ↔
      (wDf.filter (fun r => r.seniority == "Junior") = [] ∨
       wDf.filter (fun r => r.seniority == "Senior") = [] ∨
       junior_sal wDf = some 0)) ∧
    (∀ j s, junior_sal wDf = some j → senior_sal wDf = some s → j ≠ 0 →
      growth_pct wDf = some ((s - j) / j * 100)) :=
  growth_pct_spec wDf (by decide)

/-- C8: the seniority aggregate is sorted ascending by median salary and
contains exactly the seniority values present in the view, each paired with
the median salary of its group. -/
theorem salary_by_seniority_spec (view : List Row) :
    List.Sorted (keyLe Prod.snd) (salary_by_seniority view) ∧
    (∀ p : String × ℚ, p ∈ salary_by_seniority view ↔
      (p.1 ∈ view.map (fun r => r.seniority) ∧
       some p.2 = median ((view.filter fun r => r.seniority == p.1).map
         fun r => r.avg_salary_lpa))) := by
  constructor
  · exact List.sorted_insertionSort _ _
  · intro p
    unfold salary_by_seniority
    rw [List.mem_insertionSort _]
    constructor
    · intro hp
      rcases List.mem_map.mp hp with ⟨s, hs, rfl⟩
      have hsmem : s ∈ view.map (fun r => r.seniority) := by
        unfold seniorityKeys at hs
        exact List.mem_dedup.mp hs
      refine ⟨hsmem, ?_⟩
      show some ((median ((view.filter fun r => r.seniority == s).map
          fun r => r.avg_salary_lpa)).getD 0) =
        median ((view.filter fun r => r.seniority == s).map fun r => r.avg_salary_lpa)
      exact some_getD_of_isSome _ 0 (median_map_isSome _ (seniority_group_ne_nil view s hsmem))
    · intro hp
      obtain ⟨s, m⟩ := p
      obtain ⟨hmem, hmed⟩ := hp
      apply List.mem_map.mpr
      refine ⟨s, ?_, ?_⟩
      · unfold seniorityKeys
        exact List.mem_dedup.mpr hmem
      · have h1 := some_getD_of_isSome
          (median ((view.filter fun r => r.seniority == s).map fun r => r.avg_salary_lpa)) 0
          (median_map_isSome _ (seniority_group_ne_nil view s hmem))
        have h3 := Option.some.inj ((hmed : some m = _).trans h1.symm)
        show (s, (median ((view.filter fun r => r.seniority == s).map
          fun r => r.avg_salary_lpa)).getD 0) = (s, m)
        rw [← h3]

/-- C8 witness: the seniority-aggregate characterisation instantiated at the
six-row dataset and the Junior entry. -/
theorem salary_by_seniority_spec_witness :
    ("Junior", (5 : ℚ)) ∈ salary_by_seniority wDf ↔
      ("Junior" ∈ wDf.map (fun r => r.seniority) ∧
       some (5 : ℚ) = median ((wDf.filter fun r => r.seniority == "Junior").map
         fun r => r.avg_salary_lpa)) :=
  (salary_by_seniority_spec wDf).2 ("Junior", 5)

/-- C10: the experience-salary trend contains exactly the experience values
present in the view that are at most 15 years, each paired with the median
salary of its rows; greater experience values are excluded from this one
aggregate. -/
theorem exp_salary_spec (view : List Row) :
    ∀ p : ℕ × ℚ, p ∈ exp_salary view ↔
      (p.1 ∈ view.map (fun r => r.min_experience_clean) ∧ p.1 ≤ 15 ∧
       some p.2 = median ((view.filter fun r => r.min_experience_clean == p.1).map
         fun r => r.avg_salary_lpa)) := by
  intro p
  unfold exp_salary
  rw [List.mem_filter]
  constructor
  · intro hp
    obtain ⟨hmap, hle⟩ := hp
    rcases List.mem_map.mp hmap with ⟨e, he, rfl⟩
    have hemem : e ∈ view.map (fun r => r.min_experience_clean) := by
      unfold expKeys at he
      exact List.mem_dedup.mp ((List.mem_insertionSort _).mp he)
    refine ⟨hemem, by simpa using hle, ?_⟩
    show some ((median ((view.filter fun r => r.min_experience_clean == e).map
        fun r => r.avg_salary_lpa)).getD 0) =
      median ((view.filter fun r => r.min_experience_clean == e).map fun r => r.avg_salary_lpa)
    exact some_getD_of_isSome _ 0 (median_map_isSome _ (exp_group_ne_nil view e hemem))
  · intro hp
    obtain ⟨e, m⟩ := p
    obtain ⟨hmem, hle, hmed⟩ := hp
    constructor
    · apply List.mem_map.mpr
      refine ⟨e, ?_, ?_⟩
      · unfold expKeys
        exact (List.mem_insertionSort _).mpr (List.mem_dedup.mpr hmem)
      · have h1 := some_getD_of_isSome
          (median ((view.filter fun r => r.min_experience_clean == e).map
            fun r => r.avg_salary_lpa)) 0
          (median_map_isSome _ (exp_group_ne_nil view e hmem))
        have h3 := Option.some.inj ((hmed : some m = _).trans h1.symm)
        show (e, (median ((view.filter fun r => r.min_experience_clean == e).map
          fun r => r.avg_salary_lpa)).getD 0) = (e, m)
        rw [← h3]
    · simpa using hle

/-- C10 witness: the trend characterisation instantiated at the six-row
dataset and the one-year entry. -/
theorem exp_salary_spec_witness :
    (1, (4 : ℚ)) ∈ exp_salary wDf ↔
      (1 ∈ wDf.map (fun r => r.min_experience_clean) ∧ 1 ≤ 15 ∧
       some (4 : ℚ) = median ((wDf.filter fun r => r.min_experience_clean == 1).map
         fun r => r.avg_salary_lpa)) :=
  exp_salary_spec wDf (1, 4)

/-- C3: the category aggregate has at most 10 entries, is sorted descending
by median salary, every entry belongs to an observed category and carries a
count of at least 5 equal to its group's size together with the group's
median salary, and the pre-truncation filtered aggregate contains exactly the
categories with at least 5 rows in the view. -/
theorem cat_salary_spec (view : List Row) :
    (cat_salary view).length ≤ 10 ∧
    List.Sorted (keyGe CatEntry.avg_salary_lpa) (cat_salary view) ∧
    (∀ e ∈ cat_salary view,
      5 ≤ e.count ∧
      e.count = (view.filter (fun r => r.job_category == e.job_category)).length ∧
      some e.avg_salary_lpa =
        median ((view.filter (fun r => r.job_category == e.job_category)).map
          fun r => r.avg_salary_lpa) ∧
      e.job_category ∈ view.map (fun r => r.job_category)) ∧
    (∀ cat, (∃ e ∈ (catAgg view).filter (fun e => 5 ≤ e.count), e.job_category = cat) ↔
      (cat ∈ view.map (fun r => r.job_category) ∧
       5 ≤ (view.filter (fun r => r.job_category == cat)).length)) := by
  refine ⟨?_, ?_, ?_, ?_⟩
  · unfold cat_salary
    exact List.length_take_le _ _
  · unfold cat_salary
    exact List.Pairwise.sublist (List.take_sublist _ _) (List.sorted_insertionSort _ _)
  · intro e he
    unfold cat_salary at he
    have he2 : e ∈ (catAgg view).filter (fun e => 5 ≤ e.count) :=
      (List.mem_insertionSort _).mp (List.mem_of_mem_take he)
    obtain ⟨heA, hcnt⟩ := List.mem_filter.mp he2
    unfold catAgg at heA
    rcases List.mem_map.mp heA with ⟨cat, hcat, rfl⟩
    have hcmem : cat ∈ view.map (fun r => r.job_category) := by
      unfold catKeys at hcat
      exact List.mem_dedup.mp hcat
    refine ⟨by simpa using hcnt, rfl, ?_, hcmem⟩
    show some ((median ((view.filter fun r => r.job_category == cat).map
        fun r => r.avg_salary_lpa)).getD 0) =
      median ((view.filter (fun r => r.job_category == cat)).map fun r => r.avg_salary_lpa)
    exact some_getD_of_isSome _ 0 (median_map_isSome _ (category_group_ne_nil view cat hcmem))
  · intro cat
    constructor
    · intro hex
      obtain ⟨e, he, hje⟩ := hex
      obtain ⟨heA, hcnt⟩ := List.mem_filter.mp he
      unfold catAgg at heA
      rcases List.mem_map.mp heA with ⟨cat2, hcat2, rfl⟩
      have hcmem : cat2 ∈ view.map (fun r => r.job_category) := by
        unfold catKeys at hcat2
        exact List.mem_dedup.mp hcat2
      have hje2 : cat2 = cat := hje
      subst hje2
      exact ⟨hcmem, by simpa using hcnt⟩
    · intro hp
      obtain ⟨hmem, hcnt⟩ := hp
      refine ⟨⟨cat, (median ((view.filter (fun r => r.job_category == cat)).map
        fun r => r.avg_salary_lpa)).getD 0,
        (view.filter (fun r => r.job_category == cat)).length⟩, ?_, rfl⟩
      apply List.mem_filter.mpr
      constructor
      · unfold catAgg
        apply List.mem_map.mpr
        refine ⟨cat, ?_, rfl⟩
        unfold catKeys
        exact List.mem_dedup.mpr hmem
      · exact decide_eq_true hcnt

/-- C3 witness: the entry facts instantiated at the six-row dataset and its
single qualifying category entry. -/
theorem cat_salary_spec_witness :
    5 ≤ catW.count ∧
    catW.count = (wDf.filter (fun r => r.job_category == catW.job_category)).length ∧
    some catW.avg_salary_lpa =
      median ((wDf.filter (fun r => r.job_category == catW.job_category)).map
        fun r => r.avg_salary_lpa) ∧
    catW.job_category ∈ wDf.map (fun r => r.job_category) :=
  (cat_salary_spec wDf).2.2.1 catW (by decide)

/-- C4: the skills table has at most 12 entries, is sorted descending by
count, and every entry has a strictly positive count at most the view size
and carries as share the value count / view size × 100 rounded to one
decimal, which lies within [0, 100]. -/
theorem skills_df_spec (t : Table) :
    (skills_df t).length ≤ 12 ∧
    List.Sorted (keyGe (fun e : String × ℕ × ℚ => e.2.1)) (skills_df t) ∧
    (∀ e ∈ skills_df t,
      0 < e.2.1 ∧ e.2.1 ≤ t.rows.length ∧
      e.2.2 = round1 ((e.2.1 : ℚ) / (t.rows.length : ℚ) * 100) ∧
      0 ≤ e.2.2 ∧ e.2.2 ≤ 100) := by
  refine ⟨?_, ?_, ?_⟩
  · unfold skills_df top_skills
    rw [List.length_map]
    exact List.length_take_le _ _
  · unfold skills_df
    apply List.pairwise_map.mpr
    have hs : List.Sorted (keyGe Prod.snd) (top_skills t) := by
      unfold top_skills
      exact List.Pairwise.sublist (List.take_sublist _ _) (List.sorted_insertionSort _ _)
    exact hs
  · intro e he
    unfold skills_df at he
    rcases List.mem_map.mp he with ⟨p, hp, rfl⟩
    have hp2 : p ∈ skill_counts t := by
      unfold top_skills at hp
      exact (List.mem_insertionSort _).mp (List.mem_of_mem_take hp)
    obtain ⟨hpm, hpos⟩ := List.mem_filter.mp hp2
    have hposn : 0 < p.2 := of_decide_eq_true hpos
    have hle : p.2 ≤ t.rows.length := by
      rcases List.mem_map.mp hpm with ⟨q, hq, hfe⟩
      rw [← hfe]
      exact List.countP_le_length _
    have hn : 0 < t.rows.length := lt_of_lt_of_le hposn hle
    have hq0 : (0 : ℚ) ≤ (p.2 : ℚ) / (t.rows.length : ℚ) * 100 :=
      mul_nonneg (div_nonneg (Nat.cast_nonneg _) (Nat.cast_nonneg _)) (by norm_num)
    have hq100 : (p.2 : ℚ) / (t.rows.length : ℚ) * 100 ≤ 100 := by
      have hd : (p.2 : ℚ) / (t.rows.length : ℚ) ≤ 1 := by
        rw [div_le_one (by exact_mod_cast hn)]
        exact_mod_cast hle
      linarith
    exact ⟨hposn, hle, rfl, round1_nonneg _ hq0, round1_le_hundred _ hq100⟩

/-- C4 witness: the entry facts instantiated at the six-row table and its
python-skill entry (four flagged rows out of six). -/
theorem skills_df_spec_witness :
    0 < skillW.2.1 ∧ skillW.2.1 ≤ wTable.rows.length ∧
    skillW.2.2 = round1 ((skillW.2.1 : ℚ) / (wTable.rows.length : ℚ) * 100) ∧
    0 ≤ skillW.2.2 ∧ skillW.2.2 ≤ 100 :=
  (skills_df_spec wTable).2.2 skillW
    (List.mem_map.mpr ⟨("skill_python", 4), by decide, rfl⟩)

/-- The entries of `value_counts` are exactly the observed values paired with
their multiplicities. -/
theorem mem_value_counts {A : Type} [DecidableEq A] (xs : List A) (p : A × ℕ) :
    p ∈ value_counts xs ↔ (p.1 ∈ xs ∧ p.2 = xs.count p.1) := by
  unfold value_counts
  rw [List.mem_insertionSort _]
  constructor
  · intro hp
    rcases List.mem_map.mp hp with ⟨v, hv, rfl⟩
    exact ⟨List.mem_dedup.mp hv, rfl⟩
  · intro hp
    obtain ⟨a, n⟩ := p
    obtain ⟨h1, h2⟩ := hp
    apply List.mem_map.mpr
    refine ⟨a, List.mem_dedup.mpr h1, ?_⟩
    have h3 : n = xs.count a := h2
    rw [h3]

/-- C5: the four frequency tables of the dashboard: companies capped at 15
and sorted by count descending, categories capped at 8 likewise, all
seniority values with their counts, and 15 experience entries ordered by the
experience value itself rather than by frequency; every entry carries the
exact multiplicity of its value in the view. -/
theorem frequency_tables_spec (view : List Row) :
    ((top_companies view).length ≤ 15 ∧
     List.Sorted (keyGe Prod.snd) (top_companies view) ∧
     ∀ p ∈ top_companies view, p.1 ∈ view.map (fun r => r.company) ∧
       p.2 = (view.map (fun r => r.company)).count p.1) ∧
    ((job_cats view).length ≤ 8 ∧
     List.Sorted (keyGe Prod.snd) (job_cats view) ∧
     ∀ p ∈ job_cats view, p.1 ∈ view.map (fun r => r.job_category) ∧
       p.2 = (view.map (fun r => r.job_category)).count p.1) ∧
    (∀ p : String × ℕ, p ∈ seniority_dist view ↔
       (p.1 ∈ view.map (fun r => r.seniority) ∧
        p.2 = (view.map (fun r => r.seniority)).count p.1)) ∧
    ((exp_dist view).length ≤ 15 ∧
     List.Sorted (keyLe Prod.fst) (exp_dist view) ∧
     ∀ p ∈ exp_dist view, p.1 ∈ view.map (fun r => r.min_experience_clean) ∧
       p.2 = (view.map (fun r => r.min_experience_clean)).count p.1) := by
  refine ⟨⟨?_, ?_, ?_⟩, ⟨?_, ?_, ?_⟩, ?_, ⟨?_, ?_, ?_⟩⟩
  · unfold top_companies
    exact List.length_take_le _ _
  · unfold top_companies value_counts
    exact List.Pairwise.sublist (List.take_sublist _ _) (List.sorted_insertionSort _ _)
  · intro p hp
    unfold top_companies at hp
    exact (mem_value_counts _ p).mp (List.mem_of_mem_take hp)
  · unfold job_cats
    exact List.length_take_le _ _
  · unfold job_cats value_counts
    exact List.Pairwise.sublist (List.take_sublist _ _) (List.sorted_insertionSort _ _)
  · intro p hp
    unfold job_cats at hp
    exact (mem_value_counts _ p).mp (List.mem_of_mem_take hp)
  · intro p
    unfold seniority_dist
    exact mem_value_counts _ p
  · unfold exp_dist
    exact List.length_take_le _ _
  · unfold exp_dist
    exact List.Pairwise.sublist (List.take_sublist _ _) (List.sorted_insertionSort _ _)
  · intro p hp
    unfold exp_dist at hp
    exact (mem_value_counts _ p).mp
      ((List.mem_insertionSort _).mp (List.mem_of_mem_take hp))

/-- C5 witness: the company-table entry facts instantiated at the six-row
dataset and the two-job company c1. -/
theorem frequency_tables_spec_witness :
    "c1" ∈ wDf.map (fun r => r.company) ∧
    2 = (wDf.map (fun r => r.company)).count "c1" :=
  (frequency_tables_spec wDf).1.2.2 ("c1", 2) (by decide)
